import Mathlib

/-!
Verification development for the `git-syncer` synchronization engine
(`src/bin/syncer.js`).  The JavaScript program is shallowly embedded:
every probe result of the `check` helper is an `Option String` (`none`
models the literal `false` that `check` returns when the spawned command
fails, `some s` models its trimmed stdout), process-terminating branches
become explicit result constructors, and the git commands a code path
issues are collected into an explicit trace list.
-/

namespace GitSyncer

/-- Result type of the `check` helper (syncer.js lines 73-79): the trimmed
stdout of the command on success, or the literal `false` on failure.
`none` models `false`, `some s` models the string `s`. -/
abbrev CheckResult := Option String

/-- JavaScript truthiness of a `check` result: `false` is falsy, and a
string is truthy exactly when it is non-empty. -/
def truthy : CheckResult → Bool
  | none => false
  | some s => s ≠ ""

/-- The git commands with side effects that the engine issues
(`cp.execSync` calls in syncer.js). -/
inductive Cmd where
  | remoteSetUrl (remote uri : String)
  | remoteAdd (remote uri : String)
  | addAll
  | gitCommit (amend : Bool) (message : String)
  | push (remote refspec : String) (force : Bool)
  | checkout (branch : String)
  | merge (squash : Bool) (message branch : String)
  deriving DecidableEq, Repr

/-- The `repository.state` snapshot assembled in `doPrepare`
(syncer.js lines 124-130): five independent `check` probes. -/
structure Snapshot where
  revision : CheckResult
  containsUncommitedChanges : CheckResult
  repositoryUri : CheckResult
  remoteNameWhichBranchTracks : CheckResult
  branchExists : CheckResult
  deriving DecidableEq, Repr

/-- A participating repository with the fields `doPrepare` fills in
(syncer.js lines 118-136): root directory, submodule path (empty for the
superproject), routing path `root`, working branch `master`, resolved
mirror uri, deterministic commit comment, and the HEAD revision captured
at Prepare time (`repository.state.revision`). -/
structure Repo where
  dir : String
  module : String
  root : String
  master : String
  uri : String
  comment : String
  stateRevision : CheckResult
  deriving DecidableEq, Repr

/-- Shallow model of `path.join a b` for the non-empty, slash-free
segments the engine joins (posix separator). -/
def pathJoin (a b : String) : String := a ++ "/" ++ b

/-- The repository identifier: the final path segment of the root
directory, modelling `dir.replace(/^.*?([^/\x7b\x7d\\]+)$/,'$1')` for
directories without a trailing separator (syncer.js line 131). -/
def repoId (dir : String) : String := ((dir.splitOn "/").getLast?).getD dir

/-- The resolved mirror uri of a repository (syncer.js line 134):
`repositoryUri ? (module ? path.join(repositoryUri, module) : repositoryUri) : ""`,
with `none` modelling an `undefined` configuration value. -/
def resolvedUri (repositoryUri : Option String) (module : String) : String :=
  match repositoryUri with
  | none => ""
  | some u => if u = "" then "" else if module = "" then u else pathJoin u module

/-- The routing path of a repository (syncer.js line 133):
the submodule path followed by the path separator, or empty for the
superproject. -/
def repoRoot (module : String) : String := if module = "" then "" else module ++ "/"

/-- How a run of `doPrepare` ends: `process.exit(1)` at the dirty-tree
check (line 139), `process.exit(1)` at the missing-remote check
(line 157), or normal return. -/
inductive PrepareResult where
  | exitDirty
  | exitNoRemote
  | ok
  deriving DecidableEq, Repr

/-- The process exit code produced by each `doPrepare` outcome. -/
def PrepareResult.exitCode : PrepareResult → Option Nat
  | .exitDirty => some 1
  | .exitNoRemote => some 1
  | .ok => none

/-- Shallow embedding of `doPrepare` (syncer.js lines 118-160).  The
probe results are an input (they come from the external git tool); the
returned triple is the repository record the function fills in, how the
run ended, and the trace of mutating git commands it issued. -/
def doPrepare (branch branchOrigin master : String) (repositoryUri : Option String)
    (dir module : String) (state : Snapshot) : Repo × PrepareResult × List Cmd :=
  let repository : Repo :=
    { dir := dir
      module := module
      root := repoRoot module
      master := master
      uri := resolvedUri repositoryUri module
      comment := "gsync:auto:commit:" ++ branch ++ ":" ++ repoId dir
      stateRevision := state.revision }
  if truthy state.containsUncommitedChanges then
    (repository, .exitDirty, [])
  else if repository.uri ≠ "" then
    if truthy state.repositoryUri then
      (repository, .ok, [Cmd.remoteSetUrl branchOrigin repository.uri])
    else
      (repository, .ok, [Cmd.remoteAdd branchOrigin repository.uri])
  else
    if truthy state.repositoryUri then
      (repository, .ok, [])
    else
      (repository, .exitNoRemote, [])

/-- The amend-vs-new decision of the commit cycle (syncer.js line 291):
`let replace = repository.state.revision !== revision`. -/
def commitReplaceDecision {α : Type} [DecidableEq α] (stateRevision currentRevision : α) : Bool :=
  stateRevision != currentRevision

/-- State of the commit coordinator (syncer.js lines 284-285): the global
`committing` flag and the single pending-retry timer slot `commitRequest`.
A scheduled timer is `some arg` where `arg` is the argument the deferred
`commit` call will receive; the callback at line 310 invokes `commit()`
with no argument, modelled as payload `none`.  `quitStarted` records that
the push-failure handler invoked `quit()` (line 303). -/
structure Coordinator where
  committing : Bool
  commitRequest : Option (Option Repo)
  quitStarted : Bool
  deriving DecidableEq, Repr

/-- How one invocation of `commit` ends. -/
inductive CommitOutcome where
  | completed
  | deferred
  | crashedUndefinedRepo
  | crashedGit
  deriving DecidableEq, Repr

/-- Shallow embedding of the `commit` closure (syncer.js lines 286-312).
`arg` is the `repository` argument (`none` models the argument-less call
`commit()` made by the retry timer); `currentRevision` is what
`check('git rev-parse HEAD')` returns at line 290; `addOk`, `commitOk`
and `pushOk` are the exit statuses of the three mutating git commands.
Returns the next coordinator state, the outcome, and the trace of git
commands issued.  When `repository` is `undefined`, the read of
`repository.dir` at line 289 throws after `committing` was already set,
modelled by `crashedUndefinedRepo`. -/
def commit (arg : Option Repo) (currentRevision : CheckResult)
    (addOk commitOk pushOk : Bool) (branch branchOrigin : String)
    (c : Coordinator) : Coordinator × CommitOutcome × List Cmd :=
  if c.committing = false then
    match arg with
    | none => ({ c with committing := true }, .crashedUndefinedRepo, [])
    | some repository =>
      let replace := commitReplaceDecision repository.stateRevision currentRevision
      if addOk = false then
        ({ c with committing := true }, .crashedGit, [Cmd.addAll])
      else if commitOk = false then
        ({ c with committing := true }, .crashedGit,
          [Cmd.addAll, Cmd.gitCommit replace repository.comment])
      else
        let cmds := [Cmd.addAll, Cmd.gitCommit replace repository.comment,
          Cmd.push branchOrigin (branch ++ ":master") true]
        if pushOk then
          ({ c with committing := false }, .completed, cmds)
        else
          ({ c with committing := false, quitStarted := true }, .completed, cmds)
  else
    ({ c with commitRequest := some none }, .deferred, [])

/-- Firing the pending 200 ms retry timer (syncer.js line 310): the
callback clears `commitRequest` and calls `commit` with the stored
argument, which in the source is no argument at all. -/
def fireRetryTimer (currentRevision : CheckResult) (addOk commitOk pushOk : Bool)
    (branch branchOrigin : String) (c : Coordinator) :
    Option (Coordinator × CommitOutcome × List Cmd) :=
  match c.commitRequest with
  | none => none
  | some arg =>
    some (commit arg currentRevision addOk commitOk pushOk branch branchOrigin
      { c with commitRequest := none })

/-- A linear git branch for the repeated-cycle analysis: the list of
commit identifiers (newest first) and a supply of fresh identifiers
(every identifier already in `history` is below `nextId`). -/
structure GitBranch where
  history : List Nat
  nextId : Nat
  deriving DecidableEq, Repr

/-- The HEAD revision of the branch. -/
def headRev (g : GitBranch) : Option Nat := g.history.head?

/-- Effect of `git commit` without `--amend`: a fresh commit on top. -/
def gitCommitNew (g : GitBranch) : GitBranch :=
  { history := g.nextId :: g.history, nextId := g.nextId + 1 }

/-- Effect of `git commit --amend`: the tip commit is replaced by a fresh
one with the same parents. -/
def gitCommitAmend (g : GitBranch) : GitBranch :=
  match g.history with
  | [] => { history := [g.nextId], nextId := g.nextId + 1 }
  | _ :: t => { history := g.nextId :: t, nextId := g.nextId + 1 }

/-- Every commit identifier on the branch is below the fresh supply. -/
def FreshIds (g : GitBranch) : Prop := ∀ i ∈ g.history, i < g.nextId

/-- One commit cycle applied to the branch (syncer.js lines 290-293):
re-probe HEAD, compare it against the Prepare-time revision, and amend or
create accordingly. -/
def commitCycleStep (stateRevision : Option Nat) (g : GitBranch) : GitBranch :=
  let revision := headRev g
  if commitReplaceDecision stateRevision revision then gitCommitAmend g
  else gitCommitNew g

/-- Running `n` commit cycles in a row; the Prepare-time revision
`stateRevision` is never updated between cycles, exactly as
`repository.state.revision` never is in the source. -/
def commitCycles (stateRevision : Option Nat) : Nat → GitBranch → GitBranch
  | 0, g => g
  | n + 1, g => commitCycleStep stateRevision (commitCycles stateRevision n g)

/-- Shallow embedding of `doPull` (syncer.js lines 216-229): best-effort
checkout of the working branch (its failure is swallowed by the empty
`catch`), then `git merge --squash -m "<pull>" <branch>`; a merge failure
only prints the conflict instructions.  Returns the commands issued,
whether the conflict message was reported, and whether the process was
terminated. -/
def doPull (repository : Repo) (branch pullMessage : String)
    (checkoutOk mergeOk : Bool) : List Cmd × Bool × Bool :=
  let cmds := [Cmd.checkout repository.master, Cmd.merge true pullMessage branch]
  if checkoutOk then
    if mergeOk then (cmds, false, false) else (cmds, true, false)
  else
    if mergeOk then (cmds, false, false) else (cmds, true, false)

/-- Shallow embedding of the teardown loop inside `quit`
(syncer.js lines 340-345): for each repository in order, change into its
directory and run `git checkout <master>`.  `checkoutOk` is the exit
status of that command per repository; `branches` maps a repository
directory to its currently checked-out branch.  The `execSync` call is
not guarded, so a failing checkout throws out of the loop: the remaining
repositories are skipped and the final `process.exit()` (line 345) is
never reached (second component `false`). -/
def quitTeardown (checkoutOk : Repo → Bool) :
    List Repo → (String → String) → (String → String) × Bool
  | [], branches => (branches, true)
  | r :: rest, branches =>
    if checkoutOk r then
      quitTeardown checkoutOk rest (fun d => if d = r.dir then r.master else branches d)
    else
      (branches, false)

/-- Shallow model of `p.startsWith(root)` from the watcher's routing loop,
computed on the character lists of the two strings. -/
def strStartsWith (p root : String) : Bool := root.data.isPrefixOf p.data

/-- Shallow embedding of the watcher's routing loop
(syncer.js lines 321-332): scan the repositories in registration order,
keeping the repository with the longest `root` that is a prefix of the
event path, with `maxCount` starting at `-1`. -/
def routeEvent (repositories : List Repo) (p : String) : Option Repo :=
  (repositories.foldl
    (fun acc repository =>
      if strStartsWith p repository.root then
        if (repository.root.length : Int) > acc.1 then
          ((repository.root.length : Int), some repository)
        else acc
      else acc)
    ((-1 : Int), none)).2

/-- Recursive rendering of the routing loop: the accumulator of the fold,
made explicit for the refinement proof. -/
def routeAux (p : String) : List Repo → Int → Option Repo → Option Repo
  | [], _, best => best
  | r :: rest, m, best =>
    if strStartsWith p r.root then
      if (r.root.length : Int) > m then routeAux p rest (r.root.length : Int) (some r)
      else routeAux p rest m best
    else routeAux p rest m best

/-- Modelled from the spec: select the repository whose declared path
prefix is the longest string that is a prefix of the event path, ties
broken by registration order (an earlier repository beats a later one of
equal root length). -/
def routeByLongestRoot : List Repo → String → Option Repo
  | [], _ => none
  | r :: rest, p =>
    match routeByLongestRoot rest p with
    | none => if strStartsWith p r.root then some r else none
    | some b =>
      if strStartsWith p r.root then
        if b.root.length > r.root.length then some b else some r
      else some b

/-- Preferring an already-found repository `b` over a candidate result:
the candidate wins only with a strictly longer root. -/
def pickBetter (b : Repo) : Option Repo → Option Repo
  | none => some b
  | some c => if c.root.length > b.root.length then some c else some b

/-- The superproject repository of the worked example: rooted at the
empty path. -/
def superRepo : Repo :=
  { dir := "/p", module := "", root := "", master := "master", uri := "u",
    comment := "gsync:auto:commit:b:p", stateRevision := some "r0" }

/-- The sub-repository of the worked example, declared at path `lib/`. -/
def libRepo : Repo :=
  { dir := "/p/lib", module := "lib", root := "lib/", master := "master", uri := "u/lib",
    comment := "gsync:auto:commit:b:lib", stateRevision := some "r0" }

/-- A repository whose Prepare-time revision is `abc`, for the
amend-decision counterexample. -/
def amendRepo : Repo :=
  { dir := "/p", module := "", root := "", master := "master", uri := "u",
    comment := "gsync:auto:commit:b:p", stateRevision := some "abc" }

/-- Coordinator state with no cycle in flight and no pending retry. -/
def idleCoordinator : Coordinator :=
  { committing := false, commitRequest := none, quitStarted := false }

/-- Coordinator state while a commit cycle is in flight. -/
def inFlight : Coordinator :=
  { committing := true, commitRequest := none, quitStarted := false }

/-- A snapshot whose porcelain-status probe reports uncommitted changes. -/
def dirtySnap : Snapshot :=
  { revision := some "r0", containsUncommitedChanges := some " M a.txt",
    repositoryUri := some "u", remoteNameWhichBranchTracks := none,
    branchExists := some "b" }

/-- A snapshot of a clean repository with no mirror remote configured. -/
def cleanSnap : Snapshot :=
  { revision := some "r0", containsUncommitedChanges := some "",
    repositoryUri := none, remoteNameWhichBranchTracks := none,
    branchExists := none }

/-- Computation rule of `pickBetter` on a missing candidate. -/
theorem pickBetter_none (b : Repo) : pickBetter b none = some b := rfl

/-- Computation rule of `pickBetter` on a present candidate. -/
theorem pickBetter_some (b c : Repo) :
    pickBetter b (some c) =
      if c.root.length > b.root.length then some c else some b := rfl

/-- The fold of the routing loop agrees with its recursive rendering for
every starting accumulator. -/
theorem foldl_eq_routeAux (p : String) :
    ∀ (repos : List Repo) (m : Int) (best : Option Repo),
      (repos.foldl
        (fun acc repository =>
          if strStartsWith p repository.root then
            if (repository.root.length : Int) > acc.1 then
              ((repository.root.length : Int), some repository)
            else acc
          else acc)
        (m, best)).2 = routeAux p repos m best := by
  intro repos
  induction repos with
  | nil => intro m best; rfl
  | cons r rest ih =>
    intro m best
    by_cases hsw : strStartsWith p r.root = true
    · by_cases hlen : (r.root.length : Int) > m
      · simp only [List.foldl_cons, routeAux, hsw, hlen, if_true, if_pos]
        exact ih _ _
      · simp only [List.foldl_cons, routeAux, hsw, hlen, if_true, if_false, if_neg]
        exact ih _ _
    · simp only [List.foldl_cons, routeAux, hsw, if_false, Bool.false_eq_true, if_neg]
      exact ih _ _

/-- The routing loop, seen through its recursive rendering. -/
theorem routeEvent_eq_routeAux (repos : List Repo) (p : String) :
    routeEvent repos p = routeAux p repos (-1) none :=
  foldl_eq_routeAux p repos (-1) none

/-- Running the routing recursion with an already-found repository `b` in
the accumulator computes the better of `b` and the best of the remaining
list. -/
theorem routeAux_pick (p : String) :
    ∀ (rest : List Repo) (b : Repo),
      routeAux p rest (b.root.length : Int) (some b) =
        pickBetter b (routeByLongestRoot rest p) := by
  intro rest
  induction rest with
  | nil => intro b; rfl
  | cons r rest ih =>
    intro b
    by_cases hsw : strStartsWith p r.root = true
    · by_cases hlen : (r.root.length : Int) > (b.root.length : Int)
      · have hn : b.root.length < r.root.length := by exact_mod_cast hlen
        rw [routeAux, if_pos hsw, if_pos hlen, ih r, routeByLongestRoot]
        cases hR : routeByLongestRoot rest p with
        | none => simp [hsw, pickBetter_none, pickBetter_some, hn]
        | some c =>
          simp [hsw, pickBetter_none, pickBetter_some, apply_ite (pickBetter b)]
          all_goals split_ifs <;> first | rfl | (exfalso; omega)
      · have hn : ¬ b.root.length < r.root.length := fun hlt => hlen (by exact_mod_cast hlt)
        rw [routeAux, if_pos hsw, if_neg hlen, ih b, routeByLongestRoot]
        cases hR : routeByLongestRoot rest p with
        | none => simp [hsw, pickBetter_none, pickBetter_some, hn]
        | some c =>
          simp [hsw, pickBetter_none, pickBetter_some, apply_ite (pickBetter b)]
          all_goals split_ifs <;> first | rfl | (exfalso; omega)
    · rw [routeAux, if_neg hsw, ih b, routeByLongestRoot]
      cases hR : routeByLongestRoot rest p with
      | none => simp [hsw]
      | some c => simp [hsw]

/-- The routing recursion started on the loop's initial accumulator
computes the spec-side longest-root choice. -/
theorem routeAux_start (p : String) :
    ∀ repos : List Repo, routeAux p repos (-1) none = routeByLongestRoot repos p := by
  intro repos
  induction repos with
  | nil => rfl
  | cons r rest ih =>
    by_cases hsw : strStartsWith p r.root = true
    · have hpos : (r.root.length : Int) > (-1 : Int) := by
        have := Int.natCast_nonneg r.root.length
        omega
      rw [routeAux, if_pos hsw, if_pos hpos, routeAux_pick p rest r, routeByLongestRoot]
      cases hR : routeByLongestRoot rest p with
      | none => simp [hsw, pickBetter_none, pickBetter_some]
      | some c => simp [hsw, pickBetter_none, pickBetter_some]
    · rw [routeAux, if_neg hsw, ih, routeByLongestRoot]
      cases hR : routeByLongestRoot rest p with
      | none => simp [hsw]
      | some c => simp [hsw]


/-- The teardown loop never touches the branch of a directory that is not one of its repositories. -/
theorem quitTeardown_preserve (ok : Repo → Bool) :
    ∀ (repos : List Repo) (branches : String → String) (d : String),
      d ∉ repos.map Repo.dir →
      (quitTeardown ok repos branches).1 d = branches d := by
  intro repos
  induction repos with
  | nil => intro branches d _; rfl
  | cons r rest ih =>
    intro branches d hd
    rw [List.map_cons, List.mem_cons, not_or] at hd
    obtain ⟨hd1, hd2⟩ := hd
    rw [quitTeardown]
    by_cases hok : ok r = true
    · rw [if_pos hok, ih _ _ hd2]
      simp [hd1]
    · rw [if_neg hok]

/-- The HEAD revision of a branch with fresh identifiers is below the supply. -/
theorem headRev_lt (r0 : Nat) (g : GitBranch)
    (hhead : headRev g = some r0) (hfresh : FreshIds g) : r0 < g.nextId := by
  apply hfresh
  cases hh : g.history with
  | nil => rw [headRev, hh] at hhead; simp at hhead
  | cons a t =>
    rw [headRev, hh] at hhead
    simp at hhead
    rw [← hhead]
    exact List.mem_cons_self a t

/-- Computation rule of amend on a non-empty branch. -/
theorem gitCommitAmend_of_history (g : GitBranch) (c : Nat) (t : List Nat)
    (h : g.history = c :: t) :
    gitCommitAmend g = { history := g.nextId :: t, nextId := g.nextId + 1 } := by
  obtain ⟨hist, next⟩ := g
  simp only at h
  subst h
  rfl

/-- Shape of the branch after one or more commit cycles: exactly one auto-commit sits on top of the Prepare-time history, carrying a fresh identifier. -/
theorem commitCycles_shape (r0 : Nat) (g : GitBranch)
    (hhead : headRev g = some r0) (hfresh : FreshIds g) :
    ∀ n : Nat, ∃ c,
      (commitCycles (some r0) (n + 1) g).history = c :: g.history ∧
      g.nextId ≤ c ∧ c < g.nextId + (n + 1) ∧
      (commitCycles (some r0) (n + 1) g).nextId = g.nextId + (n + 1) := by
  have hr0 : r0 < g.nextId := headRev_lt r0 g hhead hfresh
  intro n
  induction n with
  | zero =>
    have hdec : commitReplaceDecision (some r0) (headRev g) = false := by
      rw [hhead]
      simp [commitReplaceDecision]
    refine ⟨g.nextId, ?_, le_refl _, by omega, ?_⟩
    · show (commitCycleStep (some r0) g).history = g.nextId :: g.history
      rw [commitCycleStep]
      simp [hdec, gitCommitNew]
    · show (commitCycleStep (some r0) g).nextId = g.nextId + 1
      rw [commitCycleStep]
      simp [hdec, gitCommitNew]
  | succ n ih =>
    obtain ⟨c, h1, h2, h3, h4⟩ := ih
    have hhd : headRev (commitCycles (some r0) (n + 1) g) = some c := by
      rw [headRev, h1]
      rfl
    have hdec : commitReplaceDecision (some r0)
        (headRev (commitCycles (some r0) (n + 1) g)) = true := by
      rw [hhd]
      simp [commitReplaceDecision]
      omega
    have hamend := gitCommitAmend_of_history (commitCycles (some r0) (n + 1) g) c g.history h1
    refine ⟨(commitCycles (some r0) (n + 1) g).nextId, ?_, by omega, by omega, ?_⟩
    · show (commitCycleStep (some r0) (commitCycles (some r0) (n + 1) g)).history = _
      rw [commitCycleStep]
      simp only [hdec, if_true]
      rw [hamend]
    · show (commitCycleStep (some r0) (commitCycles (some r0) (n + 1) g)).nextId = _
      rw [commitCycleStep]
      simp only [hdec, if_true]
      rw [hamend]
      simp
      omega

/-- C1 counterexample: at an input where the current HEAD revision equals
the last known (Prepare-time) revision, the cycle does not amend: the
replace decision is `false` and the issued commit command carries no
`--amend` flag, refuting "amends exactly when the current HEAD revision
is unchanged". -/
theorem amend_decision_counterexample :
    commitReplaceDecision amendRepo.stateRevision (some "abc") = false ∧
    (commit (some amendRepo) (some "abc") true true true "b" "b_origin"
        idleCoordinator).2.2 =
      [Cmd.addAll, Cmd.gitCommit false amendRepo.comment,
        Cmd.push "b_origin" ("b" ++ ":master") true] := by
  refine ⟨by decide, by decide⟩

/-- C1 (amended): in the commit cycle the engine amends exactly when the
re-probed HEAD revision differs from the repository's last known
revision, and creates a new commit exactly when it is unchanged. -/
theorem amend_decision_amended (r : Repo) (cur : CheckResult) (pushOk : Bool)
    (branch branchOrigin : String) (c : Coordinator) (h : c.committing = false) :
    (commit (some r) cur true true pushOk branch branchOrigin c).2.2 =
      [Cmd.addAll, Cmd.gitCommit (commitReplaceDecision r.stateRevision cur) r.comment,
        Cmd.push branchOrigin (branch ++ ":master") true] ∧
    (commitReplaceDecision r.stateRevision cur = true ↔ cur ≠ r.stateRevision) ∧
    (commitReplaceDecision r.stateRevision cur = false ↔ cur = r.stateRevision) := by
  refine ⟨?_, ?_, ?_⟩
  · cases pushOk <;> simp [commit, h]
  · simp [commitReplaceDecision, bne_iff_ne]
    exact ne_comm
  · simp [commitReplaceDecision]
    exact eq_comm

/-- Witness for C1 (amended) at a concrete input. -/
theorem amend_decision_amended_witness :
    (commit (some amendRepo) (some "xyz") true true true "b" "b_origin"
        idleCoordinator).2.2 =
      [Cmd.addAll,
        Cmd.gitCommit (commitReplaceDecision amendRepo.stateRevision (some "xyz"))
          amendRepo.comment,
        Cmd.push "b_origin" ("b" ++ ":master") true] ∧
    (commitReplaceDecision amendRepo.stateRevision (some "xyz") = true ↔
      (some "xyz" : CheckResult) ≠ amendRepo.stateRevision) ∧
    (commitReplaceDecision amendRepo.stateRevision (some "xyz") = false ↔
      (some "xyz" : CheckResult) = amendRepo.stateRevision) :=
  amend_decision_amended amendRepo (some "xyz") true "b" "b_origin" idleCoordinator rfl

/-- C2: when a commit request for a repository arrives while a cycle is
in flight, the retry is scheduled (replacing any pending one), but the
scheduled call carries no repository argument (`some none`); when the
timer fires after the flight completes, the deferred `commit()` runs with
`repository` undefined and crashes reading `repository.dir` instead of
retrying the most recently requested repository. -/
theorem retry_discards_repository :
    (commit (some libRepo) (some "r0") true true true "b" "b_origin" inFlight).2.1 =
      CommitOutcome.deferred ∧
    (commit (some libRepo) (some "r0") true true true "b" "b_origin"
        inFlight).1.commitRequest = some none ∧
    (commit (some libRepo) (some "r0") true true true "b" "b_origin"
        { inFlight with commitRequest := some (some superRepo) }).1.commitRequest =
      some none ∧
    fireRetryTimer (some "r0") true true true "b" "b_origin"
        { committing := false, commitRequest := some none, quitStarted := false } =
      some ({ committing := true, commitRequest := none, quitStarted := false },
        CommitOutcome.crashedUndefinedRepo, []) := by
  refine ⟨rfl, rfl, rfl, rfl⟩

/-- C3: a commit cycle that runs its body (here with `git add` and
`git commit` succeeding) leaves `committing = false` both on the
successful path and on the push-failure path; the push failure
additionally starts teardown, which does not block the flag release
because `quit()` only begins an asynchronous shutdown. -/
theorem committing_flag_released (c : Coordinator) (r : Repo) (cur : CheckResult)
    (pushOk : Bool) (branch branchOrigin : String) (h : c.committing = false) :
    (commit (some r) cur true true pushOk branch branchOrigin c).1.committing = false ∧
    (commit (some r) cur true true pushOk branch branchOrigin c).2.1 =
      CommitOutcome.completed ∧
    (pushOk = false →
      (commit (some r) cur true true pushOk branch branchOrigin c).1.quitStarted = true) := by
  cases pushOk <;> simp [commit, h]

/-- Witness for C3 on the push-failure path at a concrete input. -/
theorem committing_flag_released_witness :
    (commit (some libRepo) (some "r0") true true false "b" "b_origin"
        idleCoordinator).1.committing = false ∧
    (commit (some libRepo) (some "r0") true true false "b" "b_origin"
        idleCoordinator).2.1 = CommitOutcome.completed ∧
    (false = false →
      (commit (some libRepo) (some "r0") true true false "b" "b_origin"
          idleCoordinator).1.quitStarted = true) :=
  committing_flag_released idleCoordinator libRepo (some "r0") false "b" "b_origin" rfl

/-- C4 counterexample: with two repositories both sitting on the mirror
branch `gsync`, a failing checkout for the first repository aborts the
teardown loop: the second repository is left on `gsync`, not on its
working branch, and the final `process.exit()` is never reached. -/
theorem teardown_counterexample :
    (quitTeardown (fun r => r.dir != "/p") [superRepo, libRepo]
        (fun _ => "gsync")).1 libRepo.dir = "gsync" ∧
    libRepo.master = "master" ∧
    (quitTeardown (fun r => r.dir != "/p") [superRepo, libRepo]
        (fun _ => "gsync")).2 = false := by
  refine ⟨rfl, rfl, rfl⟩

/-- C4 (amended): the teardown loop checks out the working/master branch
of each repository in order; when every checkout command succeeds (and
the repository directories are distinct), every participating repository
ends up on its working branch and the loop reaches `process.exit()`.  A
failing checkout aborts the remaining restorations (there is no fold step
and no per-repository error handling in `quit`). -/
theorem teardown_restores (ok : Repo → Bool) :
    ∀ (repos : List Repo) (branches : String → String),
      (∀ r ∈ repos, ok r = true) →
      (repos.map Repo.dir).Nodup →
      (quitTeardown ok repos branches).2 = true ∧
      ∀ r ∈ repos, (quitTeardown ok repos branches).1 r.dir = r.master := by
  intro repos
  induction repos with
  | nil => intro branches _ _; exact ⟨rfl, by simp⟩
  | cons r rest ih =>
    intro branches hok hnd
    have hokr : ok r = true := hok r (List.mem_cons_self r rest)
    rw [List.map_cons, List.nodup_cons] at hnd
    obtain ⟨hdnotin, hnd'⟩ := hnd
    rw [quitTeardown, if_pos hokr]
    obtain ⟨hsnd, hmem⟩ :=
      ih (fun d => if d = r.dir then r.master else branches d)
        (fun x hx => hok x (List.mem_cons_of_mem r hx)) hnd'
    refine ⟨hsnd, ?_⟩
    intro x hx
    rcases List.mem_cons.mp hx with rfl | hx'
    · rw [quitTeardown_preserve ok rest _ x.dir hdnotin]
      simp
    · exact hmem x hx'

/-- Witness for C4 (amended) at a concrete input. -/
theorem teardown_restores_witness :
    (quitTeardown (fun _ => true) [superRepo, libRepo] (fun _ => "gsync")).2 = true ∧
    ∀ r ∈ [superRepo, libRepo],
      (quitTeardown (fun _ => true) [superRepo, libRepo] (fun _ => "gsync")).1 r.dir =
        r.master :=
  teardown_restores (fun _ => true) [superRepo, libRepo] (fun _ => "gsync")
    (fun _ _ => rfl) (by decide)

/-- C5: when the porcelain-status probe reports uncommitted changes,
`doPrepare` exits the process with code 1 at the dirty-tree check and
issues no mutating git command, in particular no mirror-remote
add/set-url. -/
theorem dirty_tree_aborts_before_mutation (branch branchOrigin master : String)
    (repositoryUri : Option String) (dir module : String) (state : Snapshot)
    (hdirty : truthy state.containsUncommitedChanges = true) :
    (doPrepare branch branchOrigin master repositoryUri dir module state).2.1 =
      PrepareResult.exitDirty ∧
    ((doPrepare branch branchOrigin master repositoryUri dir module state).2.1).exitCode =
      some 1 ∧
    (doPrepare branch branchOrigin master repositoryUri dir module state).2.2 = [] := by
  simp [doPrepare, hdirty, PrepareResult.exitCode]

/-- Witness for C5 on a dirty snapshot. -/
theorem dirty_tree_aborts_before_mutation_witness :
    (doPrepare "b" "b_origin" "master" (some "u") "/p" "" dirtySnap).2.1 =
      PrepareResult.exitDirty ∧
    ((doPrepare "b" "b_origin" "master" (some "u") "/p" "" dirtySnap).2.1).exitCode =
      some 1 ∧
    (doPrepare "b" "b_origin" "master" (some "u") "/p" "" dirtySnap).2.2 = [] :=
  dirty_tree_aborts_before_mutation "b" "b_origin" "master" (some "u") "/p" "" dirtySnap rfl

/-- C6: the watcher's routing loop selects the repository whose declared
path prefix is the longest prefix of the event path, ties broken by
registration order; in particular, with repositories rooted at the empty
path and at `lib/`, an event at `lib/x.txt` routes to the `lib/`
repository and never to the superproject. -/
theorem routing_longest_match :
    (∀ (repositories : List Repo) (p : String),
        routeEvent repositories p = routeByLongestRoot repositories p) ∧
    routeEvent [superRepo, libRepo] "lib/x.txt" = some libRepo ∧
    superRepo.root = "" ∧ libRepo.root = "lib/" ∧
    routeEvent [superRepo, libRepo] "lib/x.txt" ≠ some superRepo := by
  refine ⟨?_, by decide, rfl, rfl, by decide⟩
  intro repositories p
  rw [routeEvent_eq_routeAux, routeAux_start]

/-- Witness for C6: the refinement instantiated at a concrete input. -/
theorem routing_longest_match_witness :
    routeEvent [libRepo] "lib/a" = routeByLongestRoot [libRepo] "lib/a" :=
  routing_longest_match.1 [libRepo] "lib/a"

/-- C7: starting from a prepared branch whose HEAD is the Prepare-time
revision (with fresh commit identifiers), every run of one or more
commit cycles leaves exactly one auto-commit on top of the prepared
history, and the decision taken by the following cycle (the second and
every later run) is always amend. -/
theorem repeated_cycles_amend (r0 : Nat) (g : GitBranch)
    (hhead : headRev g = some r0) (hfresh : FreshIds g) :
    ∀ n : Nat, 1 ≤ n →
      (commitCycles (some r0) n g).history.length = g.history.length + 1 ∧
      commitReplaceDecision (some r0) (headRev (commitCycles (some r0) n g)) = true := by
  intro n hn
  obtain ⟨m, rfl⟩ : ∃ m, n = m + 1 := ⟨n - 1, by omega⟩
  obtain ⟨c, h1, h2, h3, h4⟩ := commitCycles_shape r0 g hhead hfresh m
  have hr0 : r0 < g.nextId := headRev_lt r0 g hhead hfresh
  constructor
  · rw [h1]
    simp
  · rw [headRev, h1]
    simp [commitReplaceDecision]
    omega

/-- Witness for C7 at a concrete branch with two cycles. -/
theorem repeated_cycles_amend_witness :
    (commitCycles (some 5) 2 { history := [5, 3], nextId := 6 }).history.length =
      ({ history := [5, 3], nextId := 6 } : GitBranch).history.length + 1 ∧
    commitReplaceDecision (some 5)
      (headRev (commitCycles (some 5) 2 { history := [5, 3], nextId := 6 })) = true :=
  repeated_cycles_amend 5 { history := [5, 3], nextId := 6 } rfl
    (by intro i hi; fin_cases hi <;> decide) 2 (by omega)

/-- C8: remote reconciliation in `doPrepare` on a clean tree: a supplied
URI is applied unconditionally, as a set-url when a mirror-remote URI is
already configured and as an add when none is; with no supplied URI, a
stored URI is kept without any mutation, and the absence of both aborts
the process with exit code 1. -/
theorem remote_reconciliation (branch branchOrigin master : String)
    (repositoryUri : Option String) (dir module : String) (state : Snapshot)
    (hclean : truthy state.containsUncommitedChanges = false) :
    (resolvedUri repositoryUri module ≠ "" →
      (doPrepare branch branchOrigin master repositoryUri dir module state).2.1 =
        PrepareResult.ok ∧
      (doPrepare branch branchOrigin master repositoryUri dir module state).2.2 =
        [if truthy state.repositoryUri then
          Cmd.remoteSetUrl branchOrigin (resolvedUri repositoryUri module)
        else
          Cmd.remoteAdd branchOrigin (resolvedUri repositoryUri module)]) ∧
    (resolvedUri repositoryUri module = "" → truthy state.repositoryUri = true →
      (doPrepare branch branchOrigin master repositoryUri dir module state).2.1 =
        PrepareResult.ok ∧
      (doPrepare branch branchOrigin master repositoryUri dir module state).2.2 = []) ∧
    (resolvedUri repositoryUri module = "" → truthy state.repositoryUri = false →
      (doPrepare branch branchOrigin master repositoryUri dir module state).2.1 =
        PrepareResult.exitNoRemote ∧
      ((doPrepare branch branchOrigin master repositoryUri dir module state).2.1).exitCode =
        some 1 ∧
      (doPrepare branch branchOrigin master repositoryUri dir module state).2.2 = []) := by
  refine ⟨?_, ?_, ?_⟩
  · intro h1
    cases hru : truthy state.repositoryUri <;>
      simp [doPrepare, hclean, h1, hru]
  · intro h1 h2
    simp [doPrepare, hclean, h1, h2]
  · intro h1 h2
    simp [doPrepare, hclean, h1, h2, PrepareResult.exitCode]

/-- Witness for C8: a supplied URI on a repository with no stored URI is
added, at a concrete input. -/
theorem remote_reconciliation_witness :
    (resolvedUri (some "u") "" ≠ "" →
      (doPrepare "b" "b_origin" "master" (some "u") "/p" "" cleanSnap).2.1 =
        PrepareResult.ok ∧
      (doPrepare "b" "b_origin" "master" (some "u") "/p" "" cleanSnap).2.2 =
        [if truthy cleanSnap.repositoryUri then
          Cmd.remoteSetUrl "b_origin" (resolvedUri (some "u") "")
        else
          Cmd.remoteAdd "b_origin" (resolvedUri (some "u") "")]) ∧
    (resolvedUri (some "u") "" = "" → truthy cleanSnap.repositoryUri = true →
      (doPrepare "b" "b_origin" "master" (some "u") "/p" "" cleanSnap).2.1 =
        PrepareResult.ok ∧
      (doPrepare "b" "b_origin" "master" (some "u") "/p" "" cleanSnap).2.2 = []) ∧
    (resolvedUri (some "u") "" = "" → truthy cleanSnap.repositoryUri = false →
      (doPrepare "b" "b_origin" "master" (some "u") "/p" "" cleanSnap).2.1 =
        PrepareResult.exitNoRemote ∧
      ((doPrepare "b" "b_origin" "master" (some "u") "/p" "" cleanSnap).2.1).exitCode =
        some 1 ∧
      (doPrepare "b" "b_origin" "master" (some "u") "/p" "" cleanSnap).2.2 = []) :=
  remote_reconciliation "b" "b_origin" "master" (some "u") "/p" "" cleanSnap rfl

/-- C9: the pull flow checks out the repository's working branch and
squash-merges the mirror branch into it with the operator-supplied
message; the conflict message is reported exactly when the merge fails,
and the process is never terminated by this flow. -/
theorem pull_squash_merge_nonfatal (repository : Repo) (branch pullMessage : String)
    (checkoutOk mergeOk : Bool) :
    (doPull repository branch pullMessage checkoutOk mergeOk).1 =
      [Cmd.checkout repository.master, Cmd.merge true pullMessage branch] ∧
    ((doPull repository branch pullMessage checkoutOk mergeOk).2.1 = true ↔
      mergeOk = false) ∧
    (doPull repository branch pullMessage checkoutOk mergeOk).2.2 = false := by
  cases checkoutOk <;> cases mergeOk <;> simp [doPull]

/-- Computation rule: a failed probe is falsy. -/
theorem truthy_none : truthy none = false := rfl

/-- C10: a failed porcelain-status probe (`check` returning `false`,
modelled `none`) is indistinguishable from an empty clean-tree result:
`doPrepare` behaves identically on the two, truthiness conflates command
failure with the negative/empty answer, and with a supplied URI the run
still proceeds to a mirror-remote mutation. -/
theorem probe_failure_treated_clean (branch branchOrigin master : String)
    (repositoryUri : Option String) (dir module : String) (state : Snapshot) :
    doPrepare branch branchOrigin master repositoryUri dir module
        { state with containsUncommitedChanges := none } =
      doPrepare branch branchOrigin master repositoryUri dir module
        { state with containsUncommitedChanges := some "" } ∧
    (truthy state.containsUncommitedChanges = false ↔
      (state.containsUncommitedChanges = none ∨
        state.containsUncommitedChanges = some "")) ∧
    (resolvedUri repositoryUri module ≠ "" →
      (doPrepare branch branchOrigin master repositoryUri dir module
          { state with containsUncommitedChanges := none }).2.2 ≠ []) := by
  refine ⟨?_, ?_, ?_⟩
  · simp [doPrepare, truthy]
  · cases hc : state.containsUncommitedChanges with
    | none => simp [truthy]
    | some s => simp [truthy]
  · intro h1
    cases hru : truthy state.repositoryUri <;>
      simp [doPrepare, truthy_none, h1, hru]

/-- Witness for C10 at a concrete snapshot and supplied URI. -/
theorem probe_failure_treated_clean_witness :
    doPrepare "b" "b_origin" "master" (some "u") "/p" ""
        { cleanSnap with containsUncommitedChanges := none } =
      doPrepare "b" "b_origin" "master" (some "u") "/p" ""
        { cleanSnap with containsUncommitedChanges := some "" } ∧
    (truthy cleanSnap.containsUncommitedChanges = false ↔
      (cleanSnap.containsUncommitedChanges = none ∨
        cleanSnap.containsUncommitedChanges = some "")) ∧
    (resolvedUri (some "u") "" ≠ "" →
      (doPrepare "b" "b_origin" "master" (some "u") "/p" ""
          { cleanSnap with containsUncommitedChanges := none }).2.2 ≠ []) :=
  probe_failure_treated_clean "b" "b_origin" "master" (some "u") "/p" "" cleanSnap

end GitSyncer
